import Mathlib

/-!
# WebSocket echo server: `handleWebSocket`

A shallow embedding of `handleWebSocket` (src/websocket-echo-server.go, lines 18-61)
as a pure function from the behaviour of its collaborators (the upgrader, the
connection, the logger) to the sequence of calls the handler makes on them.

The handler is sequential and deterministic: what it does next depends only on the
results its calls return.  A `World` therefore fixes those results, and the handler is
modelled as the list of `Event`s (calls with their results) it performs, in program
order, together with a flag saying whether the function returned.
-/

namespace EchoServer

/-! ## Data model -/

/-- A payload byte. -/
abbrev Byte := Fin 256

/-- A message payload, Go's `[]byte`. -/
abbrev Bytes := List Byte

/-- Go `error` values as the handler can tell them apart: a `*websocket.CloseError`
(with its `Code` and `Text`) or any other error (I/O error, protocol error, ...). -/
inductive Err where
  | closeError (code : Int) (text : String)
  | other (msg : String)
  deriving DecidableEq, Repr

/-- Modelled from the spec: constant `websocket.TextMessage` of the gorilla/websocket
dependency, the TEXT discriminator (opcode 1 of RFC 6455). -/
def TextMessage : Int := 1

/-- Modelled from the spec: constant `websocket.BinaryMessage` of the gorilla/websocket
dependency, the BINARY discriminator (opcode 2 of RFC 6455). -/
def BinaryMessage : Int := 2

/-- Modelled from the spec: constant `websocket.CloseNormalClosure` of the gorilla/websocket
dependency, the close code of a normal peer-initiated closure. -/
def CloseNormalClosure : Int := 1000

/-- Modelled from the spec: constant `websocket.CloseGoingAway` of the gorilla/websocket
dependency, the going-away close code. -/
def CloseGoingAway : Int := 1001

/-- Modelled from the spec: constant `websocket.CloseAbnormalClosure` of the
gorilla/websocket dependency, the abnormal-closure close code. -/
def CloseAbnormalClosure : Int := 1006

/-- Modelled from the spec: `websocket.IsUnexpectedCloseError` belongs to the
gorilla/websocket dependency and is not under src/.  It follows the library's contract,
which is also the error-log condition recorded for line 40: the result is true exactly
when `err` is a `*CloseError` whose code is not one of `expectedCodes`; an error that is
not a `*CloseError` gives false. -/
def IsUnexpectedCloseError (err : Err) (expectedCodes : List Int) : Bool :=
  match err with
  | .closeError code _ =>
    match expectedCodes with
    | [] => true
    | c :: cs => if code = c then false else IsUnexpectedCloseError err cs
  | .other _ => false

/-- The part of `*http.Request` the handler uses. -/
structure Request where
  RemoteAddr : String
  deriving DecidableEq, Repr

/-- The result of one `conn.ReadMessage()` call: `(messageType, message, nil)` or an error. -/
inductive ReadResult where
  | ok (messageType : Int) (message : Bytes)
  | error (err : Err)
  deriving DecidableEq, Repr

/-- The argument of a `log.Printf` call with one verb. -/
inductive LogArg where
  | err (e : Err)
  | str (s : String)
  | bytes (p : Bytes)
  | int (n : Int)
  deriving DecidableEq, Repr

/-- One `log.Printf(format, arg)` call. -/
inductive LogEntry where
  | Printf (format : String) (arg : LogArg)
  deriving DecidableEq, Repr

/-- A call made by the handler, with the result it got.
`err = none` stands for Go's `nil` error. -/
inductive Event where
  | upgrade (r : Request) (err : Option Err)
  | read (res : ReadResult)
  | write (messageType : Int) (data : Bytes) (err : Option Err)
  | close
  | log (entry : LogEntry)
  deriving DecidableEq, Repr

/-- What the collaborators answer.
* `upgrade r` is the error of `upgrader.Upgrade(w, r, nil)` (`none`: a connection is returned);
* `reads` lists the results of the successive `conn.ReadMessage()` calls; once the list is
  used up the next call blocks for ever (a peer that neither sends nor closes);
* `writeMessage k messageType data` is the error of the `k`-th (from 0)
  `conn.WriteMessage(messageType, data)` call. -/
structure World where
  upgrade : Request → Option Err
  reads : List ReadResult
  writeMessage : Nat → Int → Bytes → Option Err

/-- The observable behaviour of one call of the handler. -/
structure Run where
  trace : List Event
  returned : Bool
  deriving DecidableEq, Repr

/-! ## The handler -/

/-- The echo loop, lines 37-58.  `k` counts the `WriteMessage` calls made so far.
The result is the events of the loop and whether the loop was left (`break`). -/
def echoLoop (writeMessage : Nat → Int → Bytes → Option Err) :
    List ReadResult → Nat → List Event × Bool
  | [], _ => ([], false)
  | .error err :: _, _ =>
    if IsUnexpectedCloseError err [CloseGoingAway, CloseAbnormalClosure] then
      ([.read (.error err), .log (.Printf "Error: %v" (.err err))], true)
    else
      ([.read (.error err)], true)
  | .ok messageType message :: rest, k =>
    let received : Event :=
      if messageType = TextMessage then
        .log (.Printf "Received (text): %s" (.bytes message))
      else
        .log (.Printf "Received (binary): %d bytes" (.int message.length))
    match writeMessage k messageType message with
    | some err =>
      ([.read (.ok messageType message), received, .write messageType message (some err),
        .log (.Printf "Write error: %v" (.err err))], true)
    | none =>
      let (t, left) := echoLoop writeMessage rest (k + 1)
      (.read (.ok messageType message) :: received :: .write messageType message none :: t,
        left)

/-- The function `handleWebSocket`, lines 18-61.  The deferred `conn.Close()` runs when the
function returns, after the last statement. -/
def handleWebSocket (w : World) (r : Request) : Run :=
  match w.upgrade r with
  | some err =>
    { trace := [.upgrade r (some err), .log (.Printf "Upgrade error: %v" (.err err))],
      returned := true }
  | none =>
    let (t, left) := echoLoop w.writeMessage w.reads 0
    if left then
      { trace := [.upgrade r none, .log (.Printf "Client connected: %s" (.str r.RemoteAddr))]
          ++ t ++ [.log (.Printf "Client disconnected: %s" (.str r.RemoteAddr)), .close],
        returned := true }
    else
      { trace := [.upgrade r none, .log (.Printf "Client connected: %s" (.str r.RemoteAddr))]
          ++ t,
        returned := false }

/-! ## Observations on traces -/

/-- The result of the last `ReadMessage` call in a trace, if there is one. -/
def lastRead : List Event → Option ReadResult
  | [] => none
  | ev :: rest =>
    match lastRead rest with
    | some res => some res
    | none =>
      match ev with
      | .read res => some res
      | _ => none

/-- Is the event a `ReadMessage` or `WriteMessage` call on the connection? -/
def onConnection : Event → Bool
  | .read _ => true
  | .write _ _ _ => true
  | _ => false

/-- The reads and writes of a trace, in order. -/
def ioTrace (t : List Event) : List Event := t.filter onConnection

/-- The messages `(type, payload)` passed to `WriteMessage`, in order. -/
def writes (t : List Event) : List (Int × Bytes) :=
  t.filterMap fun
    | .write messageType data _ => some (messageType, data)
    | _ => none

/-- The messages `(type, payload)` returned by successful `ReadMessage` calls, in order. -/
def okReads (t : List Event) : List (Int × Bytes) :=
  t.filterMap fun
    | .read (.ok messageType message) => some (messageType, message)
    | _ => none

/-- Events of an iteration that ends normally: a successful read, a receipt log, a
successful write. -/
def stepEvent : Event → Bool
  | .read (.ok _ _) => true
  | .write _ _ none => true
  | .log (.Printf f _) => f = "Received (text): %s" || f = "Received (binary): %d bytes"
  | _ => false

/-- The connection I/O of a session that echoes `ms` in turn. -/
def echoPairs : List (Int × Bytes) → List Event
  | [] => []
  | m :: ms => .read (.ok m.1 m.2) :: .write m.1 m.2 none :: echoPairs ms

/-- A request used in the examples. -/
def sampleRequest : Request := { RemoteAddr := "192.0.2.7:51234" }

/-- A session: TEXT "ping", BINARY 00 FF 10, TEXT "", then the peer drops the
connection without a close frame (reported by the library as close error 1006). -/
def sampleWorld : World :=
  { upgrade := fun _ => none
    reads := [.ok TextMessage [112, 105, 110, 103], .ok BinaryMessage [0, 255, 16],
      .ok TextMessage [], .error (.closeError CloseAbnormalClosure "unexpected EOF")]
    writeMessage := fun _ _ _ => none }

/-- A session whose second echo cannot be written; the peer would have sent more. -/
def brokenPipeWorld : World :=
  { upgrade := fun _ => none
    reads := [.ok TextMessage [104, 105], .ok BinaryMessage [7], .ok TextMessage [111]]
    writeMessage := fun k _ _ => if k = 1 then some (.other "broken pipe") else none }

/-- A request whose upgrade fails. -/
def rejectingWorld : World :=
  { upgrade := fun _ => some (.other "websocket: the client is not using the websocket protocol")
    reads := []
    writeMessage := fun _ _ _ => none }

/-- A world whose only `ReadMessage` call fails with `err`. -/
def failingReadWorld (err : Err) : World :=
  { upgrade := fun _ => none
    reads := [.error err]
    writeMessage := fun _ _ _ => none }

/-- The events of the sample session up to the receipt log of its third message. -/
def sampleHead : List Event :=
  [.upgrade sampleRequest none,
    .log (.Printf "Client connected: %s" (.str "192.0.2.7:51234")),
    .read (.ok TextMessage [112, 105, 110, 103]),
    .log (.Printf "Received (text): %s" (.bytes [112, 105, 110, 103])),
    .write TextMessage [112, 105, 110, 103] none,
    .read (.ok BinaryMessage [0, 255, 16]),
    .log (.Printf "Received (binary): %d bytes" (.int 3)),
    .write BinaryMessage [0, 255, 16] none,
    .read (.ok TextMessage []),
    .log (.Printf "Received (text): %s" (.bytes []))]

/-- The events of the sample session after the echo of its third message. -/
def sampleTail : List Event :=
  [.read (.error (.closeError CloseAbnormalClosure "unexpected EOF")),
    .log (.Printf "Client disconnected: %s" (.str "192.0.2.7:51234")),
    .close]

/-- The two events the handler ends with when its loop is left. -/
def epilogue (r : Request) : List Event :=
  [.log (.Printf "Client disconnected: %s" (.str r.RemoteAddr)), .close]

/-! ## Lemmas on lists and on the loop -/

theorem split_mid {α : Type} (A T B pre post : List α) (x : α) (hA : x ∉ A) (hB : x ∉ B)
    (h : A ++ T ++ B = pre ++ x :: post) :
    ∃ pre1 post1, pre = A ++ pre1 ∧ post = post1 ++ B ∧ T = pre1 ++ x :: post1 := by
  induction A generalizing pre with
  | nil =>
    simp only [List.nil_append] at h ⊢
    rcases List.append_eq_append_iff.1 h with ⟨a, h1, h2⟩ | ⟨c, h1, h2⟩
    · exact absurd (by rw [h2]; simp) hB
    · cases c with
      | nil =>
        simp only [List.nil_append] at h2
        exact absurd (by rw [← h2]; simp) hB
      | cons y c =>
        simp only [List.cons_append, List.cons.injEq] at h2
        exact ⟨pre, c, rfl, h2.2, by rw [h1, h2.1]⟩
  | cons a A ih =>
    cases pre with
    | nil =>
      simp only [List.cons_append, List.nil_append, List.cons.injEq] at h
      exact absurd (by rw [h.1]; simp) hA
    | cons b pre =>
      simp only [List.cons_append, List.cons.injEq] at h
      have hA1 : x ∉ A := fun hx => hA (List.mem_cons_of_mem _ hx)
      obtain ⟨pre1, post1, h1, h2, h3⟩ := ih pre hA1 h.2
      exact ⟨pre1, post1, by rw [h.1, h1]; rfl, h2, h3⟩

theorem echoLoop_nil (wm : Nat → Int → Bytes → Option Err) (k : Nat) :
    echoLoop wm [] k = ([], false) := rfl

theorem echoLoop_error (wm : Nat → Int → Bytes → Option Err) (err : Err)
    (rest : List ReadResult) (k : Nat) :
    echoLoop wm (.error err :: rest) k =
      (.read (.error err) ::
        (if IsUnexpectedCloseError err [CloseGoingAway, CloseAbnormalClosure] then
          [.log (.Printf "Error: %v" (.err err))] else []), true) := by
  simp only [echoLoop]
  split <;> rfl

theorem echoLoop_ok_some (wm : Nat → Int → Bytes → Option Err) (t : Int) (p : Bytes)
    (rest : List ReadResult) (k : Nat) (err : Err) (hw : wm k t p = some err) :
    echoLoop wm (.ok t p :: rest) k =
      ([.read (.ok t p),
        if t = TextMessage then .log (.Printf "Received (text): %s" (.bytes p))
        else .log (.Printf "Received (binary): %d bytes" (.int p.length)),
        .write t p (some err), .log (.Printf "Write error: %v" (.err err))], true) := by
  simp only [echoLoop, hw]

theorem echoLoop_ok_none (wm : Nat → Int → Bytes → Option Err) (t : Int) (p : Bytes)
    (rest : List ReadResult) (k : Nat) (hw : wm k t p = none) :
    echoLoop wm (.ok t p :: rest) k =
      (.read (.ok t p) ::
        (if t = TextMessage then .log (.Printf "Received (text): %s" (.bytes p))
         else .log (.Printf "Received (binary): %d bytes" (.int p.length))) ::
        .write t p none :: (echoLoop wm rest (k + 1)).1, (echoLoop wm rest (k + 1)).2) := by
  simp only [echoLoop, hw]

/-- The receipt log call of lines 47-51 is a `log.Printf` call. -/
theorem received_isLog (t : Int) (p : Bytes) :
    ∃ entry, (if t = TextMessage then Event.log (.Printf "Received (text): %s" (.bytes p))
      else Event.log (.Printf "Received (binary): %d bytes" (.int p.length))) = .log entry := by
  split <;> exact ⟨_, rfl⟩

theorem cons_split {α : Type} (a : α) (l pre post : List α) (x : α)
    (h : a :: l = pre ++ x :: post) :
    (pre = [] ∧ a = x ∧ l = post) ∨ ∃ pre1, pre = a :: pre1 ∧ l = pre1 ++ x :: post := by
  cases pre with
  | nil =>
    simp only [List.nil_append, List.cons.injEq] at h
    exact Or.inl ⟨rfl, h.1, h.2⟩
  | cons b pre =>
    simp only [List.cons_append, List.cons.injEq] at h
    exact Or.inr ⟨pre, by rw [h.1], h.2⟩

/-- Inside the loop, a `WriteMessage` call comes right after the receipt log of the
`ReadMessage` call that returned the same type and payload. -/
theorem echoLoop_write_split (wm : Nat → Int → Bytes → Option Err) (reads : List ReadResult)
    (k : Nat) (pre post : List Event) (t : Int) (p : Bytes) (res : Option Err)
    (h : (echoLoop wm reads k).1 = pre ++ .write t p res :: post) :
    ∃ pre0 entry, pre = pre0 ++ [.read (.ok t p), .log entry] := by
  induction reads generalizing k pre with
  | nil => simp [echoLoop_nil] at h
  | cons rr rest ih =>
    cases rr with
    | error e =>
      rw [echoLoop_error] at h
      split at h
      · rcases cons_split _ _ _ _ _ h with ⟨_, h1, _⟩ | ⟨pre1, _, h1⟩
        · cases h1
        · rcases cons_split _ _ _ _ _ h1 with ⟨_, h2, _⟩ | ⟨pre2, _, h2⟩
          · cases h2
          · simp at h2
      · rcases cons_split _ _ _ _ _ h with ⟨_, h1, _⟩ | ⟨pre1, _, h1⟩
        · cases h1
        · simp at h1
    | ok mt m =>
      obtain ⟨entry, hentry⟩ := received_isLog mt m
      cases hw : wm k mt m with
      | some e =>
        rw [echoLoop_ok_some wm mt m rest k e hw, hentry] at h
        rcases cons_split _ _ _ _ _ h with ⟨_, h1, _⟩ | ⟨pre1, hp1, h1⟩
        · cases h1
        rcases cons_split _ _ _ _ _ h1 with ⟨_, h2, _⟩ | ⟨pre2, hp2, h2⟩
        · cases h2
        rcases cons_split _ _ _ _ _ h2 with ⟨hp3, h3, _⟩ | ⟨pre3, hp3, h3⟩
        · cases h3
          exact ⟨[], entry, by rw [hp1, hp2, hp3]; rfl⟩
        rcases cons_split _ _ _ _ _ h3 with ⟨_, h4, _⟩ | ⟨pre4, _, h4⟩
        · cases h4
        · simp at h4
      | none =>
        rw [echoLoop_ok_none wm mt m rest k hw, hentry] at h
        rcases cons_split _ _ _ _ _ h with ⟨_, h1, _⟩ | ⟨pre1, hp1, h1⟩
        · cases h1
        rcases cons_split _ _ _ _ _ h1 with ⟨_, h2, _⟩ | ⟨pre2, hp2, h2⟩
        · cases h2
        rcases cons_split _ _ _ _ _ h2 with ⟨hp3, h3, _⟩ | ⟨pre3, hp3, h3⟩
        · cases h3
          exact ⟨[], entry, by rw [hp1, hp2, hp3]; rfl⟩
        obtain ⟨pre0, entry0, h0⟩ := ih (k + 1) pre3 h3
        exact ⟨.read (.ok mt m) :: .log entry :: .write mt m none :: pre0, entry0, by
          rw [hp1, hp2, hp3, h0]; rfl⟩

/-- Inside the loop, a successful `ReadMessage` is followed by one receipt log call and
then by the `WriteMessage` call with the same type and payload. -/
theorem echoLoop_read_ok_split (wm : Nat → Int → Bytes → Option Err) (reads : List ReadResult)
    (k : Nat) (pre post : List Event) (t : Int) (p : Bytes)
    (h : (echoLoop wm reads k).1 = pre ++ .read (.ok t p) :: post) :
    ∃ res post1, post =
      (if t = TextMessage then Event.log (.Printf "Received (text): %s" (.bytes p))
       else Event.log (.Printf "Received (binary): %d bytes" (.int p.length)))
      :: .write t p res :: post1 := by
  induction reads generalizing k pre with
  | nil => simp [echoLoop_nil] at h
  | cons rr rest ih =>
    cases rr with
    | error e =>
      rw [echoLoop_error] at h
      split at h
      · rcases cons_split _ _ _ _ _ h with ⟨_, h1, _⟩ | ⟨pre1, _, h1⟩
        · cases h1
        · rcases cons_split _ _ _ _ _ h1 with ⟨_, h2, _⟩ | ⟨pre2, _, h2⟩
          · cases h2
          · simp at h2
      · rcases cons_split _ _ _ _ _ h with ⟨_, h1, _⟩ | ⟨pre1, _, h1⟩
        · cases h1
        · simp at h1
    | ok mt m =>
      obtain ⟨entry, hentry⟩ := received_isLog mt m
      cases hw : wm k mt m with
      | some e =>
        rw [echoLoop_ok_some wm mt m rest k e hw] at h
        rcases cons_split _ _ _ _ _ h with ⟨_, h1, hpost⟩ | ⟨pre1, hp1, h1⟩
        · cases h1
          exact ⟨some e, _, hpost.symm⟩
        rw [hentry] at h1
        rcases cons_split _ _ _ _ _ h1 with ⟨_, h2, _⟩ | ⟨pre2, hp2, h2⟩
        · cases h2
        rcases cons_split _ _ _ _ _ h2 with ⟨hp3, h3, _⟩ | ⟨pre3, hp3, h3⟩
        · cases h3
        rcases cons_split _ _ _ _ _ h3 with ⟨_, h4, _⟩ | ⟨pre4, _, h4⟩
        · cases h4
        · simp at h4
      | none =>
        rw [echoLoop_ok_none wm mt m rest k hw] at h
        rcases cons_split _ _ _ _ _ h with ⟨_, h1, hpost⟩ | ⟨pre1, hp1, h1⟩
        · cases h1
          exact ⟨none, _, hpost.symm⟩
        rw [hentry] at h1
        rcases cons_split _ _ _ _ _ h1 with ⟨_, h2, _⟩ | ⟨pre2, hp2, h2⟩
        · cases h2
        rcases cons_split _ _ _ _ _ h2 with ⟨hp3, h3, _⟩ | ⟨pre3, hp3, h3⟩
        · cases h3
        exact ih (k + 1) pre3 h3

theorem received_stepEvent (t : Int) (p : Bytes) :
    stepEvent (if t = TextMessage then Event.log (.Printf "Received (text): %s" (.bytes p))
      else Event.log (.Printf "Received (binary): %d bytes" (.int p.length))) = true := by
  split <;> simp [stepEvent]

/-- Inside the loop, a failed `ReadMessage` is followed only by the optional error log; the
loop is left, and everything before belongs to iterations that ended normally. -/
theorem echoLoop_read_error_split (wm : Nat → Int → Bytes → Option Err)
    (reads : List ReadResult) (k : Nat) (pre post : List Event) (e : Err)
    (h : (echoLoop wm reads k).1 = pre ++ .read (.error e) :: post) :
    post = (if IsUnexpectedCloseError e [CloseGoingAway, CloseAbnormalClosure] then
        [.log (.Printf "Error: %v" (.err e))] else []) ∧
      (echoLoop wm reads k).2 = true ∧ ∀ ev ∈ pre, stepEvent ev = true := by
  induction reads generalizing k pre with
  | nil => simp [echoLoop_nil] at h
  | cons rr rest ih =>
    cases rr with
    | error e1 =>
      rw [echoLoop_error] at h ⊢
      rcases cons_split _ _ _ _ _ h with ⟨hp, h1, hpost⟩ | ⟨pre1, _, h1⟩
      · cases h1
        exact ⟨hpost.symm, rfl, by simp [hp]⟩
      · split at h1
        · rcases cons_split _ _ _ _ _ h1 with ⟨_, h2, _⟩ | ⟨pre2, _, h2⟩
          · cases h2
          · simp at h2
        · simp at h1
    | ok mt m =>
      have hstep := received_stepEvent mt m
      obtain ⟨entry, hentry⟩ := received_isLog mt m
      cases hw : wm k mt m with
      | some e1 =>
        rw [echoLoop_ok_some wm mt m rest k e1 hw, hentry] at h
        rcases cons_split _ _ _ _ _ h with ⟨_, h1, _⟩ | ⟨pre1, hp1, h1⟩
        · cases h1
        rcases cons_split _ _ _ _ _ h1 with ⟨_, h2, _⟩ | ⟨pre2, hp2, h2⟩
        · cases h2
        rcases cons_split _ _ _ _ _ h2 with ⟨hp3, h3, _⟩ | ⟨pre3, hp3, h3⟩
        · cases h3
        rcases cons_split _ _ _ _ _ h3 with ⟨_, h4, _⟩ | ⟨pre4, _, h4⟩
        · cases h4
        · simp at h4
      | none =>
        rw [echoLoop_ok_none wm mt m rest k hw] at h ⊢
        rw [hentry] at h hstep
        rcases cons_split _ _ _ _ _ h with ⟨_, h1, _⟩ | ⟨pre1, hp1, h1⟩
        · cases h1
        rcases cons_split _ _ _ _ _ h1 with ⟨_, h2, _⟩ | ⟨pre2, hp2, h2⟩
        · cases h2
        rcases cons_split _ _ _ _ _ h2 with ⟨hp3, h3, _⟩ | ⟨pre3, hp3, h3⟩
        · cases h3
        obtain ⟨h4, h5, h6⟩ := ih (k + 1) pre3 h3
        refine ⟨h4, h5, ?_⟩
        intro ev hev
        rw [hp1, hp2, hp3] at hev
        simp only [List.mem_cons] at hev
        rcases hev with rfl | rfl | rfl | hev
        · rfl
        · exact hstep
        · rfl
        · exact h6 ev hev

/-- Inside the loop, a failed `WriteMessage` is followed only by its error log; the loop is
left, and everything before the failed iteration belongs to iterations that ended
normally. -/
theorem echoLoop_write_error_split (wm : Nat → Int → Bytes → Option Err)
    (reads : List ReadResult) (k : Nat) (pre post : List Event) (t : Int) (p : Bytes) (e : Err)
    (h : (echoLoop wm reads k).1 = pre ++ .write t p (some e) :: post) :
    post = [.log (.Printf "Write error: %v" (.err e))] ∧
      (echoLoop wm reads k).2 = true ∧
      ∀ ev ∈ pre, stepEvent ev = true := by
  induction reads generalizing k pre with
  | nil => simp [echoLoop_nil] at h
  | cons rr rest ih =>
    cases rr with
    | error e1 =>
      rw [echoLoop_error] at h
      rcases cons_split _ _ _ _ _ h with ⟨hp, h1, hpost⟩ | ⟨pre1, _, h1⟩
      · cases h1
      · split at h1
        · rcases cons_split _ _ _ _ _ h1 with ⟨_, h2, _⟩ | ⟨pre2, _, h2⟩
          · cases h2
          · simp at h2
        · simp at h1
    | ok mt m =>
      have hstep := received_stepEvent mt m
      obtain ⟨entry, hentry⟩ := received_isLog mt m
      cases hw : wm k mt m with
      | some e1 =>
        rw [echoLoop_ok_some wm mt m rest k e1 hw] at h ⊢
        rw [hentry] at h hstep
        rcases cons_split _ _ _ _ _ h with ⟨_, h1, _⟩ | ⟨pre1, hp1, h1⟩
        · cases h1
        rcases cons_split _ _ _ _ _ h1 with ⟨_, h2, _⟩ | ⟨pre2, hp2, h2⟩
        · cases h2
        rcases cons_split _ _ _ _ _ h2 with ⟨hp3, h3, hpost⟩ | ⟨pre3, hp3, h3⟩
        · cases h3
          refine ⟨hpost.symm, rfl, ?_⟩
          intro ev hev
          rw [hp1, hp2, hp3] at hev
          simp only [List.mem_cons, List.mem_nil_iff, or_false] at hev
          rcases hev with rfl | rfl
          · rfl
          · exact hstep
        rcases cons_split _ _ _ _ _ h3 with ⟨_, h4, _⟩ | ⟨pre4, _, h4⟩
        · cases h4
        · simp at h4
      | none =>
        rw [echoLoop_ok_none wm mt m rest k hw] at h ⊢
        rw [hentry] at h hstep
        rcases cons_split _ _ _ _ _ h with ⟨_, h1, _⟩ | ⟨pre1, hp1, h1⟩
        · cases h1
        rcases cons_split _ _ _ _ _ h1 with ⟨_, h2, _⟩ | ⟨pre2, hp2, h2⟩
        · cases h2
        rcases cons_split _ _ _ _ _ h2 with ⟨hp3, h3, _⟩ | ⟨pre3, hp3, h3⟩
        · cases h3
        obtain ⟨h4, h5, h6⟩ := ih (k + 1) pre3 h3
        refine ⟨h4, h5, ?_⟩
        intro ev hev
        rw [hp1, hp2, hp3] at hev
        simp only [List.mem_cons] at hev
        rcases hev with rfl | rfl | rfl | hev
        · rfl
        · exact hstep
        · rfl
        · exact h6 ev hev

/-! ## The handler around the loop -/

theorem handleWebSocket_upgrade_error (w : World) (r : Request) (e : Err)
    (h : w.upgrade r = some e) :
    handleWebSocket w r =
      { trace := [.upgrade r (some e), .log (.Printf "Upgrade error: %v" (.err e))],
        returned := true } := by
  simp only [handleWebSocket, h]

theorem handleWebSocket_upgraded (w : World) (r : Request) (h : w.upgrade r = none) :
    (handleWebSocket w r).trace =
        [.upgrade r none, .log (.Printf "Client connected: %s" (.str r.RemoteAddr))]
          ++ (echoLoop w.writeMessage w.reads 0).1
          ++ (if (echoLoop w.writeMessage w.reads 0).2 then epilogue r else []) ∧
      (handleWebSocket w r).returned = (echoLoop w.writeMessage w.reads 0).2 := by
  simp only [handleWebSocket, h]
  cases hl : (echoLoop w.writeMessage w.reads 0).2 <;> simp [epilogue]

/-- A read or write in the handler's trace lies in the part produced by the loop. -/
theorem handleWebSocket_io_split (w : World) (r : Request) (pre post : List Event) (x : Event)
    (hx : onConnection x = true) (h : (handleWebSocket w r).trace = pre ++ x :: post) :
    w.upgrade r = none ∧ ∃ pre1 post1,
      pre = [.upgrade r none, .log (.Printf "Client connected: %s" (.str r.RemoteAddr))]
        ++ pre1 ∧
      post = post1 ++ (if (echoLoop w.writeMessage w.reads 0).2 then epilogue r else []) ∧
      (echoLoop w.writeMessage w.reads 0).1 = pre1 ++ x :: post1 := by
  cases hup : w.upgrade r with
  | some e =>
    rw [handleWebSocket_upgrade_error w r e hup] at h
    have hmem : x ∈ [Event.upgrade r (some e), .log (.Printf "Upgrade error: %v" (.err e))] := by
      simp only at h
      rw [h]
      simp
    simp only [List.mem_cons, List.mem_nil_iff, or_false] at hmem
    rcases hmem with rfl | rfl <;> simp [onConnection] at hx
  | none =>
    refine ⟨rfl, ?_⟩
    rw [(handleWebSocket_upgraded w r hup).1] at h
    refine split_mid _ _ _ pre post x ?_ ?_ h
    · intro hmem
      simp only [List.mem_cons, List.mem_nil_iff, or_false] at hmem
      rcases hmem with rfl | rfl <;> simp [onConnection] at hx
    · intro hmem
      split at hmem
      · simp only [epilogue, List.mem_cons, List.mem_nil_iff, or_false] at hmem
        rcases hmem with rfl | rfl <;> simp [onConnection] at hx
      · simp at hmem

theorem isUnexpected_iff (e : Err) :
    IsUnexpectedCloseError e [CloseGoingAway, CloseAbnormalClosure] = true ↔
      ∃ code text, e = .closeError code text ∧ code ≠ CloseGoingAway ∧
        code ≠ CloseAbnormalClosure := by
  cases e with
  | closeError code text =>
    simp only [IsUnexpectedCloseError]
    by_cases h1 : code = CloseGoingAway
    · simp [h1]
    · by_cases h2 : code = CloseAbnormalClosure
      · simp [h2]
      · simp [h1, h2]
  | other msg => simp [IsUnexpectedCloseError]

theorem stepEvent_not_error_log (ev : Event) (a : LogArg) (h : stepEvent ev = true) :
    ev ≠ .log (.Printf "Error: %v" a) := by
  rintro rfl
  simp [stepEvent] at h

theorem stepEvent_not_write_error_log (ev : Event) (a : LogArg) (h : stepEvent ev = true) :
    ev ≠ .log (.Printf "Write error: %v" a) := by
  rintro rfl
  simp [stepEvent] at h

/-- The handler after a failed `ReadMessage`. -/
theorem handleWebSocket_read_error (w : World) (r : Request) (pre post : List Event) (e : Err)
    (h : (handleWebSocket w r).trace = pre ++ .read (.error e) :: post) :
    post = (if IsUnexpectedCloseError e [CloseGoingAway, CloseAbnormalClosure] then
        [.log (.Printf "Error: %v" (.err e))] else []) ++ epilogue r ∧
      (handleWebSocket w r).returned = true ∧
      ∃ pre1, pre = [.upgrade r none,
          .log (.Printf "Client connected: %s" (.str r.RemoteAddr))] ++ pre1 ∧
        ∀ ev ∈ pre1, stepEvent ev = true := by
  obtain ⟨hup, pre1, post1, hpre, hpost, hloop⟩ :=
    handleWebSocket_io_split w r pre post (.read (.error e)) rfl h
  obtain ⟨h1, h2, h3⟩ := echoLoop_read_error_split _ _ _ _ _ _ hloop
  rw [h2] at hpost
  refine ⟨?_, ?_, pre1, hpre, h3⟩
  · rw [hpost, h1]; rfl
  · rw [(handleWebSocket_upgraded w r hup).2, h2]

/-- The handler after a failed `WriteMessage`. -/
theorem handleWebSocket_write_error (w : World) (r : Request) (pre post : List Event)
    (t : Int) (p : Bytes) (e : Err)
    (h : (handleWebSocket w r).trace = pre ++ .write t p (some e) :: post) :
    post = .log (.Printf "Write error: %v" (.err e)) :: epilogue r ∧
      (handleWebSocket w r).returned = true ∧
      ∃ pre1, pre = [.upgrade r none,
          .log (.Printf "Client connected: %s" (.str r.RemoteAddr))] ++ pre1 ∧
        ∀ ev ∈ pre1, stepEvent ev = true := by
  obtain ⟨hup, pre1, post1, hpre, hpost, hloop⟩ :=
    handleWebSocket_io_split w r pre post (.write t p (some e)) rfl h
  obtain ⟨h1, h2, h3⟩ := echoLoop_write_error_split _ _ _ _ _ _ _ _ hloop
  rw [h2] at hpost
  refine ⟨?_, ?_, pre1, hpre, h3⟩
  · rw [hpost, h1]; rfl
  · rw [(handleWebSocket_upgraded w r hup).2, h2]

theorem lastRead_append_read_log (pre0 : List Event) (res : ReadResult) (entry : LogEntry) :
    lastRead (pre0 ++ [.read res, .log entry]) = some res := by
  induction pre0 with
  | nil => rfl
  | cons a l ih =>
    show (match lastRead (l ++ [.read res, .log entry]) with
      | some res1 => some res1
      | none => match a with
        | .read res1 => some res1
        | _ => none) = some res
    rw [ih]

/-- The loop calls nothing but `ReadMessage`, `WriteMessage` and `log.Printf`. -/
theorem echoLoop_events (wm : Nat → Int → Bytes → Option Err) (reads : List ReadResult)
    (k : Nat) : ∀ ev ∈ (echoLoop wm reads k).1, ev ≠ .close := by
  induction reads generalizing k with
  | nil => simp [echoLoop_nil]
  | cons rr rest ih =>
    cases rr with
    | error e =>
      rw [echoLoop_error]
      intro ev hev
      split at hev <;> simp at hev <;> rcases hev with rfl | rfl <;> simp
    | ok mt m =>
      obtain ⟨entry, hentry⟩ := received_isLog mt m
      cases hw : wm k mt m with
      | some e =>
        rw [echoLoop_ok_some wm mt m rest k e hw, hentry]
        intro ev hev
        simp only [List.mem_cons, List.mem_nil_iff, or_false] at hev
        rcases hev with rfl | rfl | rfl | rfl <;> simp
      | none =>
        rw [echoLoop_ok_none wm mt m rest k hw, hentry]
        intro ev hev
        simp only [List.mem_cons] at hev
        rcases hev with rfl | rfl | rfl | hev
        · simp
        · simp
        · simp
        · exact ih (k + 1) ev hev

/-! ## The specified properties -/

/-- C1 (echo fidelity).  Cut the handler's trace at any event `x`.  If `x` is a successful
`ReadMessage` returning type `t` and payload `p` (empty or not), the next connection call
is `WriteMessage(t, p)`, with only the receipt log in between.  If `x` is a `WriteMessage`
call with arguments `t` and `p`, the most recent `ReadMessage` before it returned exactly
`t` and `p`, in the same iteration. -/
theorem echo_fidelity (w : World) (r : Request) (pre post : List Event) (x : Event)
    (h : (handleWebSocket w r).trace = pre ++ x :: post) :
    (∀ t p, x = .read (.ok t p) →
        ∃ entry res post1, post = .log entry :: .write t p res :: post1) ∧
      (∀ t p res, x = .write t p res →
        lastRead pre = some (.ok t p) ∧
          ∃ pre0 entry, pre = pre0 ++ [.read (.ok t p), .log entry]) := by
  constructor
  · rintro t p rfl
    obtain ⟨_, pre1, post1, _, hpost, hloop⟩ :=
      handleWebSocket_io_split w r pre post (.read (.ok t p)) rfl h
    obtain ⟨res, post2, h2⟩ := echoLoop_read_ok_split _ _ _ _ _ _ _ hloop
    obtain ⟨entry, hentry⟩ := received_isLog t p
    rw [hentry] at h2
    exact ⟨entry, res, _, by rw [hpost, h2]; rfl⟩
  · rintro t p res rfl
    obtain ⟨_, pre1, post1, hpre, _, hloop⟩ :=
      handleWebSocket_io_split w r pre post (.write t p res) rfl h
    obtain ⟨pre0, entry, h0⟩ := echoLoop_write_split _ _ _ _ _ _ _ _ hloop
    have hp : pre = ([.upgrade r none,
        .log (.Printf "Client connected: %s" (.str r.RemoteAddr))] ++ pre0)
        ++ [.read (.ok t p), .log entry] := by
      rw [hpre, h0, List.append_assoc]
    exact ⟨by rw [hp, lastRead_append_read_log], _, entry, hp⟩

theorem echo_fidelity_witness :
    (handleWebSocket sampleWorld sampleRequest).trace =
        sampleHead ++ .write TextMessage [] none :: sampleTail ∧
      lastRead sampleHead = some (.ok TextMessage []) ∧
      sampleTail = [.read (.error (.closeError CloseAbnormalClosure "unexpected EOF")),
        .log (.Printf "Client disconnected: %s" (.str "192.0.2.7:51234")), .close] :=
  ⟨rfl,
    ((echo_fidelity sampleWorld sampleRequest sampleHead sampleTail
      (.write TextMessage [] none) rfl).2 TextMessage [] none rfl).1,
    rfl⟩

/-! ### C2 -/

theorem writes_append (l1 l2 : List Event) : writes (l1 ++ l2) = writes l1 ++ writes l2 := by
  simp [writes, List.filterMap_append]

theorem okReads_append (l1 l2 : List Event) :
    okReads (l1 ++ l2) = okReads l1 ++ okReads l2 := by
  simp [okReads, List.filterMap_append]

theorem ioTrace_append (l1 l2 : List Event) : ioTrace (l1 ++ l2) = ioTrace l1 ++ ioTrace l2 := by
  simp [ioTrace, List.filter_append]

/-- The loop on a script of `ms` followed by a read error, when no write fails. -/
theorem echoLoop_script (wm : Nat → Int → Bytes → Option Err)
    (hw : ∀ k t p, wm k t p = none) (ms : List (Int × Bytes)) (e : Err)
    (rest : List ReadResult) (k : Nat) :
    ioTrace (echoLoop wm (ms.map (fun m => ReadResult.ok m.1 m.2) ++ .error e :: rest) k).1
        = echoPairs ms ++ [.read (.error e)] ∧
      writes (echoLoop wm (ms.map (fun m => ReadResult.ok m.1 m.2) ++ .error e :: rest) k).1
        = ms ∧
      (echoLoop wm (ms.map (fun m => ReadResult.ok m.1 m.2) ++ .error e :: rest) k).2
        = true := by
  induction ms generalizing k with
  | nil =>
    simp only [List.map_nil, List.nil_append, echoLoop_error, echoPairs]
    split <;> simp [ioTrace, onConnection, writes]
  | cons m ms ih =>
    obtain ⟨entry, hentry⟩ := received_isLog m.1 m.2
    obtain ⟨h1, h2, h3⟩ := ih (k + 1)
    simp only [List.map_cons, List.cons_append, echoLoop_ok_none wm m.1 m.2 _ k (hw k m.1 m.2),
      hentry, echoPairs]
    refine ⟨?_, ?_, h3⟩
    · rw [← h1]
      simp [ioTrace, onConnection]
    · have : writes (Event.read (.ok m.1 m.2) :: .log entry :: .write m.1 m.2 none ::
          (echoLoop wm (ms.map (fun m => ReadResult.ok m.1 m.2) ++ .error e :: rest)
            (k + 1)).1) = (m.1, m.2) :: writes
          (echoLoop wm (ms.map (fun m => ReadResult.ok m.1 m.2) ++ .error e :: rest)
            (k + 1)).1 := by
        simp [writes]
      rw [this, h2]

/-- C2 (order preservation, strict alternation).  When the upgrade succeeds, `ReadMessage`
returns the messages `ms` in that order and then an error `e`, and every `WriteMessage`
succeeds, the reads and writes of the session are exactly
read m1, write m1, ..., read mn, write mn, read (error); the written messages are `ms`,
in order; and the handler returns. -/
theorem order_preservation (w : World) (r : Request) (ms : List (Int × Bytes)) (e : Err)
    (rest : List ReadResult) (hup : w.upgrade r = none)
    (hreads : w.reads = ms.map (fun m => ReadResult.ok m.1 m.2) ++ .error e :: rest)
    (hw : ∀ k t p, w.writeMessage k t p = none) :
    ioTrace (handleWebSocket w r).trace = echoPairs ms ++ [.read (.error e)] ∧
      writes (handleWebSocket w r).trace = ms ∧
      (handleWebSocket w r).returned = true := by
  obtain ⟨h1, h2, h3⟩ := echoLoop_script w.writeMessage hw ms e rest 0
  rw [← hreads] at h1 h2 h3
  obtain ⟨ht, hr⟩ := handleWebSocket_upgraded w r hup
  rw [ht, hr, h3]
  refine ⟨?_, ?_, rfl⟩
  · rw [ioTrace_append, ioTrace_append, h1]
    simp [ioTrace, onConnection, epilogue]
  · rw [writes_append, writes_append, h2]
    simp [writes, epilogue]

theorem order_preservation_witness :
    ioTrace (handleWebSocket sampleWorld sampleRequest).trace =
        echoPairs [(TextMessage, [112, 105, 110, 103]), (BinaryMessage, [0, 255, 16]),
          (TextMessage, [])]
        ++ [.read (.error (.closeError CloseAbnormalClosure "unexpected EOF"))] ∧
      writes (handleWebSocket sampleWorld sampleRequest).trace =
        [(TextMessage, [112, 105, 110, 103]), (BinaryMessage, [0, 255, 16]),
          (TextMessage, [])] ∧
      (handleWebSocket sampleWorld sampleRequest).returned = true :=
  order_preservation sampleWorld sampleRequest
    [(TextMessage, [112, 105, 110, 103]), (BinaryMessage, [0, 255, 16]), (TextMessage, [])]
    (.closeError CloseAbnormalClosure "unexpected EOF") [] rfl rfl (fun _ _ _ => rfl)

/-! ### C3 -/

/-- C3 (release exactly once).  When the upgrade succeeds and the handler returns, whatever
made the loop stop, `conn.Close` is the last call of the trace and is called exactly once:
it comes after every read and write on the connection. -/
theorem close_exactly_once (w : World) (r : Request) (hup : w.upgrade r = none)
    (hret : (handleWebSocket w r).returned = true) :
    (∃ pre, (handleWebSocket w r).trace = pre ++ [.close] ∧ Event.close ∉ pre) ∧
      (handleWebSocket w r).trace.count .close = 1 := by
  obtain ⟨ht, hr⟩ := handleWebSocket_upgraded w r hup
  rw [hr] at hret
  rw [hret] at ht
  have hnot : Event.close ∉ [Event.upgrade r none,
      .log (.Printf "Client connected: %s" (.str r.RemoteAddr))]
      ++ (echoLoop w.writeMessage w.reads 0).1
      ++ [.log (.Printf "Client disconnected: %s" (.str r.RemoteAddr))] := by
    intro hmem
    simp only [List.mem_append, List.mem_cons, List.mem_nil_iff, or_false] at hmem
    rcases hmem with ((h1 | h1) | h1) | h1
    · cases h1
    · cases h1
    · exact echoLoop_events _ _ _ _ h1 rfl
    · cases h1
  have hsplit : (handleWebSocket w r).trace = ([Event.upgrade r none,
      .log (.Printf "Client connected: %s" (.str r.RemoteAddr))]
      ++ (echoLoop w.writeMessage w.reads 0).1
      ++ [.log (.Printf "Client disconnected: %s" (.str r.RemoteAddr))]) ++ [.close] := by
    rw [ht]
    simp [epilogue]
  refine ⟨⟨_, hsplit, hnot⟩, ?_⟩
  rw [hsplit, List.count_append, List.count_eq_zero.2 hnot]
  rfl

theorem close_exactly_once_witness :
    (brokenPipeWorld.upgrade sampleRequest = none ∧
      (handleWebSocket brokenPipeWorld sampleRequest).returned = true ∧
      (handleWebSocket brokenPipeWorld sampleRequest).trace.count .close = 1) ∧
    (handleWebSocket sampleWorld sampleRequest).trace.count .close = 1 ∧
    (handleWebSocket (failingReadWorld (.closeError 1002 "protocol error"))
      sampleRequest).trace.count .close = 1 :=
  ⟨⟨rfl, rfl, (close_exactly_once brokenPipeWorld sampleRequest rfl rfl).2⟩,
    (close_exactly_once sampleWorld sampleRequest rfl rfl).2,
    (close_exactly_once (failingReadWorld (.closeError 1002 "protocol error"))
      sampleRequest rfl rfl).2⟩

/-! ### C4 -/

/-- C4 (handshake failure creates no session).  When `upgrader.Upgrade` returns an error,
the handler does exactly two things, the `Upgrade` call and one "Upgrade error" log call
carrying that error, and returns: no `ReadMessage`, `WriteMessage` or `Close`, and no
"Client connected" or "Client disconnected" log. -/
theorem handshake_failure (w : World) (r : Request) (e : Err) (h : w.upgrade r = some e) :
    handleWebSocket w r =
      { trace := [.upgrade r (some e), .log (.Printf "Upgrade error: %v" (.err e))],
        returned := true } := by
  exact handleWebSocket_upgrade_error w r e h

theorem handshake_failure_witness :
    rejectingWorld.upgrade sampleRequest =
        some (.other "websocket: the client is not using the websocket protocol") ∧
      handleWebSocket rejectingWorld sampleRequest =
        { trace := [.upgrade sampleRequest
              (some (.other "websocket: the client is not using the websocket protocol")),
            .log (.Printf "Upgrade error: %v"
              (.err (.other "websocket: the client is not using the websocket protocol")))],
          returned := true } :=
  ⟨rfl, handshake_failure rejectingWorld sampleRequest _ rfl⟩

/-! ### C7 -/

/-- C7 (a write error ends the session).  After a `WriteMessage` call that returns an error
`e`, the handler makes exactly three more calls: one "Write error" log carrying `e`, the
"Client disconnected" log and `Close`; so there is no further read or write.  No
"Write error" log comes before the failed write, so there is exactly one. -/
theorem write_error_ends_session (w : World) (r : Request) (pre post : List Event) (t : Int)
    (p : Bytes) (e : Err)
    (h : (handleWebSocket w r).trace = pre ++ .write t p (some e) :: post) :
    post = [.log (.Printf "Write error: %v" (.err e)),
        .log (.Printf "Client disconnected: %s" (.str r.RemoteAddr)), .close] ∧
      (handleWebSocket w r).returned = true ∧
      ∀ a, Event.log (.Printf "Write error: %v" a) ∉ pre := by
  obtain ⟨h1, h2, pre1, h3, h4⟩ := handleWebSocket_write_error w r pre post t p e h
  refine ⟨h1, h2, ?_⟩
  intro a hmem
  rw [h3] at hmem
  simp only [List.cons_append, List.nil_append, List.mem_cons] at hmem
  rcases hmem with h5 | h5 | h5
  · cases h5
  · simp at h5
  · exact stepEvent_not_write_error_log _ a (h4 _ h5) rfl

theorem write_error_ends_session_witness :
    (handleWebSocket brokenPipeWorld sampleRequest).trace =
        [.upgrade sampleRequest none,
          .log (.Printf "Client connected: %s" (.str "192.0.2.7:51234")),
          .read (.ok TextMessage [104, 105]),
          .log (.Printf "Received (text): %s" (.bytes [104, 105])),
          .write TextMessage [104, 105] none,
          .read (.ok BinaryMessage [7]),
          .log (.Printf "Received (binary): %d bytes" (.int 1))]
        ++ .write BinaryMessage [7] (some (.other "broken pipe")) ::
          [.log (.Printf "Write error: %v" (.err (.other "broken pipe"))),
            .log (.Printf "Client disconnected: %s" (.str "192.0.2.7:51234")), .close] ∧
      (handleWebSocket brokenPipeWorld sampleRequest).returned = true :=
  ⟨rfl, (write_error_ends_session brokenPipeWorld sampleRequest
    [.upgrade sampleRequest none,
      .log (.Printf "Client connected: %s" (.str "192.0.2.7:51234")),
      .read (.ok TextMessage [104, 105]),
      .log (.Printf "Received (text): %s" (.bytes [104, 105])),
      .write TextMessage [104, 105] none,
      .read (.ok BinaryMessage [7]),
      .log (.Printf "Received (binary): %d bytes" (.int 1))]
    [.log (.Printf "Write error: %v" (.err (.other "broken pipe"))),
      .log (.Printf "Client disconnected: %s" (.str "192.0.2.7:51234")), .close]
    BinaryMessage [7] (.other "broken pipe") rfl).2.1⟩

/-! ### C9 -/

/-- C9 (per-message receipt log).  A successful `ReadMessage` returning type `t` and
payload `p` is followed by exactly one log call and then by the echo write.  For a TEXT
message the log call is "Received (text): %s" with the whole payload; for a BINARY message
(and any type other than TEXT) it is "Received (binary): %d bytes" with `len(p)` as its
only argument, so nothing of the content is logged. -/
theorem receipt_log (w : World) (r : Request) (pre post : List Event) (t : Int) (p : Bytes)
    (h : (handleWebSocket w r).trace = pre ++ .read (.ok t p) :: post) :
    ∃ entry res post1, post = .log entry :: .write t p res :: post1 ∧
      (t = TextMessage → entry = .Printf "Received (text): %s" (.bytes p)) ∧
      (t = BinaryMessage → entry = .Printf "Received (binary): %d bytes" (.int p.length)) ∧
      (t ≠ TextMessage → entry = .Printf "Received (binary): %d bytes" (.int p.length)) := by
  obtain ⟨_, pre1, post1, _, hpost, hloop⟩ :=
    handleWebSocket_io_split w r pre post (.read (.ok t p)) rfl h
  obtain ⟨res, post2, h2⟩ := echoLoop_read_ok_split _ _ _ _ _ _ _ hloop
  by_cases ht : t = TextMessage
  · rw [if_pos ht] at h2
    refine ⟨_, res, _, by rw [hpost, h2]; rfl, fun _ => rfl, ?_, fun hne => absurd ht hne⟩
    intro hb
    rw [hb] at ht
    exact absurd ht (by decide)
  · rw [if_neg ht] at h2
    exact ⟨_, res, _, by rw [hpost, h2]; rfl, fun htext => absurd htext ht, fun _ => rfl,
      fun _ => rfl⟩

theorem receipt_log_witness :
    (handleWebSocket brokenPipeWorld sampleRequest).trace =
        [.upgrade sampleRequest none,
          .log (.Printf "Client connected: %s" (.str "192.0.2.7:51234")),
          .read (.ok TextMessage [104, 105]),
          .log (.Printf "Received (text): %s" (.bytes [104, 105])),
          .write TextMessage [104, 105] none]
        ++ .read (.ok BinaryMessage [7]) ::
          [.log (.Printf "Received (binary): %d bytes" (.int 1)),
            .write BinaryMessage [7] (some (.other "broken pipe")),
            .log (.Printf "Write error: %v" (.err (.other "broken pipe"))),
            .log (.Printf "Client disconnected: %s" (.str "192.0.2.7:51234")), .close] ∧
      ∃ entry res post1,
        [Event.log (.Printf "Received (binary): %d bytes" (.int 1)),
          .write BinaryMessage [7] (some (.other "broken pipe")),
          .log (.Printf "Write error: %v" (.err (.other "broken pipe"))),
          .log (.Printf "Client disconnected: %s" (.str "192.0.2.7:51234")), .close]
          = .log entry :: .write BinaryMessage [7] res :: post1 ∧
        (BinaryMessage = TextMessage →
          entry = .Printf "Received (text): %s" (.bytes [7])) ∧
        (BinaryMessage = BinaryMessage →
          entry = .Printf "Received (binary): %d bytes" (.int (([7] : Bytes).length))) ∧
        (BinaryMessage ≠ TextMessage →
          entry = .Printf "Received (binary): %d bytes" (.int (([7] : Bytes).length))) :=
  ⟨rfl, receipt_log brokenPipeWorld sampleRequest
    [.upgrade sampleRequest none,
      .log (.Printf "Client connected: %s" (.str "192.0.2.7:51234")),
      .read (.ok TextMessage [104, 105]),
      .log (.Printf "Received (text): %s" (.bytes [104, 105])),
      .write TextMessage [104, 105] none]
    _ BinaryMessage [7] rfl⟩

/-! ### C5, C6, C10: which receive errors are logged -/

/-- Before a failed `ReadMessage` there is no "Error" log call. -/
theorem no_error_log_before (r : Request) (pre1 : List Event)
    (h : ∀ ev ∈ pre1, stepEvent ev = true) (a : LogArg) :
    Event.log (.Printf "Error: %v" a) ∉ [Event.upgrade r none,
      .log (.Printf "Client connected: %s" (.str r.RemoteAddr))] ++ pre1 := by
  intro hmem
  simp only [List.cons_append, List.nil_append, List.mem_cons] at hmem
  rcases hmem with h5 | h5 | h5
  · cases h5
  · simp at h5
  · exact stepEvent_not_error_log _ a (h _ h5) rfl

/-- C5, counterexample.  A peer-initiated normal closure (close code 1000) is an expected
closure in the sense of the specification, and the session logs it as an error. -/
theorem normal_closure_is_logged :
    (handleWebSocket (failingReadWorld (.closeError CloseNormalClosure "")) sampleRequest).trace
      = [.upgrade sampleRequest none,
          .log (.Printf "Client connected: %s" (.str "192.0.2.7:51234")),
          .read (.error (.closeError 1000 "")),
          .log (.Printf "Error: %v" (.err (.closeError 1000 ""))),
          .log (.Printf "Client disconnected: %s" (.str "192.0.2.7:51234")),
          .close] ∧
      Event.log (.Printf "Error: %v" (.err (.closeError 1000 ""))) ∈
        (handleWebSocket (failingReadWorld (.closeError CloseNormalClosure ""))
          sampleRequest).trace := by
  constructor
  · rfl
  · decide

/-- C5, amended.  When `ReadMessage` fails with a close error whose code is going-away
(1001) or abnormal closure (1006), the session leaves the loop without any "Error" log
call: after the failed read come only the "Client disconnected" log and `Close`, and the
whole trace holds no "Error" log call. -/
theorem expected_closure_is_silent (w : World) (r : Request) (pre post : List Event)
    (code : Int) (text : String)
    (hcode : code = CloseGoingAway ∨ code = CloseAbnormalClosure)
    (h : (handleWebSocket w r).trace = pre ++ .read (.error (.closeError code text)) :: post) :
    post = [.log (.Printf "Client disconnected: %s" (.str r.RemoteAddr)), .close] ∧
      (handleWebSocket w r).returned = true ∧
      ∀ a, Event.log (.Printf "Error: %v" a) ∉ (handleWebSocket w r).trace := by
  obtain ⟨h1, h2, pre1, h3, h4⟩ := handleWebSocket_read_error w r pre post _ h
  have hexp : IsUnexpectedCloseError (.closeError code text)
      [CloseGoingAway, CloseAbnormalClosure] = false := by
    rw [Bool.eq_false_iff]
    intro hu
    obtain ⟨c, tx, hc, hn1, hn2⟩ := (isUnexpected_iff _).1 hu
    cases hc
    rcases hcode with hcode | hcode
    · exact hn1 hcode
    · exact hn2 hcode
  rw [hexp] at h1
  have hpost : post = [.log (.Printf "Client disconnected: %s" (.str r.RemoteAddr)),
      .close] := by
    rw [h1]; rfl
  refine ⟨hpost, h2, ?_⟩
  intro a hmem
  rw [h, hpost, List.mem_append] at hmem
  rcases hmem with hmem | hmem
  · rw [h3] at hmem
    exact no_error_log_before r pre1 h4 a hmem
  · simp at hmem

theorem expected_closure_is_silent_witness :
    (CloseAbnormalClosure = CloseGoingAway ∨ CloseAbnormalClosure = CloseAbnormalClosure) ∧
      (handleWebSocket sampleWorld sampleRequest).trace =
        (sampleHead ++ [Event.write TextMessage [] none])
          ++ .read (.error (.closeError CloseAbnormalClosure "unexpected EOF")) ::
            [.log (.Printf "Client disconnected: %s" (.str "192.0.2.7:51234")), .close] ∧
      ∀ a, Event.log (.Printf "Error: %v" a) ∉
        (handleWebSocket sampleWorld sampleRequest).trace :=
  ⟨Or.inr rfl, rfl,
    (expected_closure_is_silent sampleWorld sampleRequest
      (sampleHead ++ [Event.write TextMessage [] none])
      [.log (.Printf "Client disconnected: %s" (.str "192.0.2.7:51234")), .close]
      CloseAbnormalClosure "unexpected EOF" (Or.inr rfl) rfl).2.2⟩

/-- C6, counterexample.  A receive error that is not a close error (a plain I/O error) is
not an expected closure, and the session leaves the loop without logging it. -/
theorem io_error_is_not_logged :
    (handleWebSocket (failingReadWorld (.other "read: connection reset by peer"))
        sampleRequest).trace
      = [.upgrade sampleRequest none,
          .log (.Printf "Client connected: %s" (.str "192.0.2.7:51234")),
          .read (.error (.other "read: connection reset by peer")),
          .log (.Printf "Client disconnected: %s" (.str "192.0.2.7:51234")),
          .close] ∧
      Event.log (.Printf "Error: %v" (.err (.other "read: connection reset by peer"))) ∉
        (handleWebSocket (failingReadWorld (.other "read: connection reset by peer"))
          sampleRequest).trace := by
  constructor
  · rfl
  · decide

/-- C6, amended.  When `ReadMessage` fails with a close error whose code is neither
going-away (1001) nor abnormal closure (1006), for instance a protocol error (1002), the
session logs that error right after the failed read, before the "Client disconnected" log
and `Close`. -/
theorem unexpected_close_is_logged (w : World) (r : Request) (pre post : List Event)
    (code : Int) (text : String)
    (hcode : code ≠ CloseGoingAway ∧ code ≠ CloseAbnormalClosure)
    (h : (handleWebSocket w r).trace = pre ++ .read (.error (.closeError code text)) :: post) :
    post = [.log (.Printf "Error: %v" (.err (.closeError code text))),
        .log (.Printf "Client disconnected: %s" (.str r.RemoteAddr)), .close] ∧
      (handleWebSocket w r).returned = true := by
  obtain ⟨h1, h2, _⟩ := handleWebSocket_read_error w r pre post _ h
  have hun : IsUnexpectedCloseError (.closeError code text)
      [CloseGoingAway, CloseAbnormalClosure] = true :=
    (isUnexpected_iff _).2 ⟨code, text, rfl, hcode.1, hcode.2⟩
  rw [hun] at h1
  exact ⟨by rw [h1]; rfl, h2⟩

theorem unexpected_close_is_logged_witness :
    ((1002 : Int) ≠ CloseGoingAway ∧ (1002 : Int) ≠ CloseAbnormalClosure) ∧
      (handleWebSocket (failingReadWorld (.closeError 1002 "bad opcode")) sampleRequest).trace =
        [.upgrade sampleRequest none,
          .log (.Printf "Client connected: %s" (.str "192.0.2.7:51234"))]
        ++ .read (.error (.closeError 1002 "bad opcode")) ::
          [.log (.Printf "Error: %v" (.err (.closeError 1002 "bad opcode"))),
            .log (.Printf "Client disconnected: %s" (.str "192.0.2.7:51234")), .close] ∧
      (handleWebSocket (failingReadWorld (.closeError 1002 "bad opcode"))
        sampleRequest).returned = true :=
  ⟨by decide, rfl,
    (unexpected_close_is_logged (failingReadWorld (.closeError 1002 "bad opcode"))
      sampleRequest
      [.upgrade sampleRequest none,
        .log (.Printf "Client connected: %s" (.str "192.0.2.7:51234"))]
      [.log (.Printf "Error: %v" (.err (.closeError 1002 "bad opcode"))),
        .log (.Printf "Client disconnected: %s" (.str "192.0.2.7:51234")), .close]
      1002 "bad opcode" (by decide) rfl).2⟩

/-- C10 (exact error-log condition).  When `ReadMessage` returns the error `e`, the trace
holds an "Error" log call if and only if `e` is a close error whose code is neither 1001
nor 1006 (so code 1000 is logged and an error that is not a close error is not).  Either
way the rest of the trace is the same apart from that one log call, carrying `e`: the
"Client disconnected" log and `Close` follow, and the handler returns. -/
theorem error_log_condition (w : World) (r : Request) (pre post : List Event) (e : Err)
    (h : (handleWebSocket w r).trace = pre ++ .read (.error e) :: post) :
    ((∃ a, Event.log (.Printf "Error: %v" a) ∈ (handleWebSocket w r).trace) ↔
        ∃ code text, e = .closeError code text ∧ code ≠ CloseGoingAway ∧
          code ≠ CloseAbnormalClosure) ∧
      (post = [.log (.Printf "Client disconnected: %s" (.str r.RemoteAddr)), .close] ∨
        post = [.log (.Printf "Error: %v" (.err e)),
          .log (.Printf "Client disconnected: %s" (.str r.RemoteAddr)), .close]) ∧
      (handleWebSocket w r).returned = true := by
  obtain ⟨h1, h2, pre1, h3, h4⟩ := handleWebSocket_read_error w r pre post _ h
  cases hu : IsUnexpectedCloseError e [CloseGoingAway, CloseAbnormalClosure] with
  | true =>
    rw [hu] at h1
    have hpost : post = [.log (.Printf "Error: %v" (.err e)),
        .log (.Printf "Client disconnected: %s" (.str r.RemoteAddr)), .close] := by
      rw [h1]; rfl
    refine ⟨⟨fun _ => (isUnexpected_iff e).1 hu, fun _ => ⟨.err e, ?_⟩⟩, Or.inr hpost, h2⟩
    rw [h, hpost]
    simp
  | false =>
    rw [hu] at h1
    have hpost : post = [.log (.Printf "Client disconnected: %s" (.str r.RemoteAddr)),
        .close] := by
      rw [h1]; rfl
    refine ⟨⟨?_, ?_⟩, Or.inl hpost, h2⟩
    · rintro ⟨a, hmem⟩
      rw [h, hpost, List.mem_append] at hmem
      rcases hmem with hmem | hmem
      · rw [h3] at hmem
        exact absurd hmem (no_error_log_before r pre1 h4 a)
      · simp at hmem
    · intro hc
      rw [(isUnexpected_iff e).2 hc] at hu
      cases hu

theorem error_log_condition_witness :
    (handleWebSocket (failingReadWorld (.closeError CloseNormalClosure "bye"))
        sampleRequest).trace =
      [.upgrade sampleRequest none,
        .log (.Printf "Client connected: %s" (.str "192.0.2.7:51234"))]
      ++ .read (.error (.closeError CloseNormalClosure "bye")) ::
        [.log (.Printf "Error: %v" (.err (.closeError CloseNormalClosure "bye"))),
          .log (.Printf "Client disconnected: %s" (.str "192.0.2.7:51234")), .close] ∧
    ((∃ a, Event.log (.Printf "Error: %v" a) ∈
        (handleWebSocket (failingReadWorld (.closeError CloseNormalClosure "bye"))
          sampleRequest).trace) ↔
      ∃ code text, Err.closeError CloseNormalClosure "bye" = .closeError code text ∧
        code ≠ CloseGoingAway ∧ code ≠ CloseAbnormalClosure) :=
  ⟨rfl,
    (error_log_condition (failingReadWorld (.closeError CloseNormalClosure "bye"))
      sampleRequest
      [.upgrade sampleRequest none,
        .log (.Printf "Client connected: %s" (.str "192.0.2.7:51234"))]
      [.log (.Printf "Error: %v" (.err (.closeError CloseNormalClosure "bye"))),
        .log (.Printf "Client disconnected: %s" (.str "192.0.2.7:51234")), .close]
      (.closeError CloseNormalClosure "bye") rfl).1⟩

/-! ### C8 -/

theorem writes_take_nil (l : List Event) (n : Nat) (h : writes l = []) :
    writes (l.take n) = [] := by
  have h1 : writes (l.take n ++ l.drop n) = [] := by rw [List.take_append_drop]; exact h
  rw [writes_append] at h1
  exact (List.append_eq_nil.1 h1).1

/-- At every point of the loop, the writes made so far are at most as many as the
successful reads. -/
theorem echoLoop_take_count (wm : Nat → Int → Bytes → Option Err) (reads : List ReadResult)
    (k n : Nat) :
    (writes ((echoLoop wm reads k).1.take n)).length ≤
      (okReads ((echoLoop wm reads k).1.take n)).length := by
  induction reads generalizing k n with
  | nil => simp [echoLoop_nil, writes]
  | cons rr rest ih =>
    cases rr with
    | error e =>
      rw [echoLoop_error]
      rw [writes_take_nil _ n (by split <;> simp [writes])]
      exact Nat.zero_le _
    | ok mt m =>
      obtain ⟨entry, hentry⟩ := received_isLog mt m
      cases hw : wm k mt m with
      | some e =>
        rw [echoLoop_ok_some wm mt m rest k e hw, hentry]
        rcases n with _ | _ | _ | _ | n <;> simp [writes, okReads]
      | none =>
        rw [echoLoop_ok_none wm mt m rest k hw, hentry]
        rcases n with _ | _ | _ | n
        · simp [writes]
        · simp [writes]
        · simp [writes]
        · have h1 := ih (k + 1) n
          simp only [List.take_succ_cons]
          have hw1 : writes (Event.read (.ok mt m) :: .log entry :: .write mt m none ::
              (echoLoop wm rest (k + 1)).1.take n) =
              (mt, m) :: writes ((echoLoop wm rest (k + 1)).1.take n) := by
            simp [writes]
          have hr1 : okReads (Event.read (.ok mt m) :: .log entry :: .write mt m none ::
              (echoLoop wm rest (k + 1)).1.take n) =
              (mt, m) :: okReads ((echoLoop wm rest (k + 1)).1.take n) := by
            simp [okReads]
          rw [hw1, hr1]
          simp only [List.length_cons]
          omega

/-- At every point of the handler, the writes made so far are at most as many as the
successful reads. -/
theorem handleWebSocket_take_count (w : World) (r : Request) (n : Nat) :
    (writes ((handleWebSocket w r).trace.take n)).length ≤
      (okReads ((handleWebSocket w r).trace.take n)).length := by
  cases hup : w.upgrade r with
  | some e =>
    rw [handleWebSocket_upgrade_error w r e hup]
    rw [writes_take_nil _ n (by simp [writes])]
    exact Nat.zero_le _
  | none =>
    rw [(handleWebSocket_upgraded w r hup).1]
    rcases n with _ | _ | n
    · simp [writes]
    · simp [writes]
    · simp only [List.cons_append, List.nil_append, List.take_succ_cons]
      rw [List.take_append_eq_append_take]
      have hw1 : ∀ l : List Event, writes (Event.upgrade r none ::
          .log (.Printf "Client connected: %s" (.str r.RemoteAddr)) :: l) = writes l := by
        intro l; simp [writes]
      have hr1 : ∀ l : List Event, okReads (Event.upgrade r none ::
          .log (.Printf "Client connected: %s" (.str r.RemoteAddr)) :: l) = okReads l := by
        intro l; simp [okReads]
      have hB : writes ((if (echoLoop w.writeMessage w.reads 0).2 = true then epilogue r
          else []).take (n - (echoLoop w.writeMessage w.reads 0).1.length)) = [] :=
        writes_take_nil _ _ (by split <;> simp [writes, epilogue])
      rw [hw1, hr1, writes_append, okReads_append, hB]
      have h1 := echoLoop_take_count w.writeMessage w.reads 0 n
      simp only [List.length_append, List.length_nil, Nat.add_zero]
      omega

/-- C8 (no output after a receive error).  Cut the handler's trace anywhere.  The writes
before the cut are at most as many as the successful reads before the cut.  If a failed
`ReadMessage` lies before the cut, whatever its error, nothing after the cut is a
`ReadMessage` or a `WriteMessage`: no echo, no final message to the peer, no further
read. -/
theorem no_output_after_read_error (w : World) (r : Request) (pre post : List Event)
    (h : (handleWebSocket w r).trace = pre ++ post) :
    (writes pre).length ≤ (okReads pre).length ∧
      ∀ e, Event.read (.error e) ∈ pre → ∀ ev ∈ post, onConnection ev = false := by
  constructor
  · have h1 := handleWebSocket_take_count w r pre.length
    rw [h, List.take_left] at h1
    exact h1
  · intro e hmem ev hev
    obtain ⟨a, b, hab⟩ := List.append_of_mem hmem
    have h1 : (handleWebSocket w r).trace = a ++ .read (.error e) :: (b ++ post) := by
      rw [h, hab]; simp
    obtain ⟨h2, _, _⟩ := handleWebSocket_read_error w r a (b ++ post) e h1
    have h3 : ev ∈ b ++ post := List.mem_append_right _ hev
    rw [h2] at h3
    split at h3
    · simp only [epilogue, List.cons_append, List.nil_append, List.mem_cons,
        List.mem_nil_iff, or_false] at h3
      rcases h3 with rfl | rfl | rfl <;> rfl
    · simp only [epilogue, List.nil_append, List.mem_cons, List.mem_nil_iff, or_false] at h3
      rcases h3 with rfl | rfl <;> rfl

theorem no_output_after_read_error_witness :
    (handleWebSocket (failingReadWorld (.closeError 1002 "bad opcode")) sampleRequest).trace =
        [.upgrade sampleRequest none,
          .log (.Printf "Client connected: %s" (.str "192.0.2.7:51234")),
          .read (.error (.closeError 1002 "bad opcode"))]
        ++ [.log (.Printf "Error: %v" (.err (.closeError 1002 "bad opcode"))),
          .log (.Printf "Client disconnected: %s" (.str "192.0.2.7:51234")), .close] ∧
      ∀ ev ∈ [Event.log (.Printf "Error: %v" (.err (.closeError 1002 "bad opcode"))),
          .log (.Printf "Client disconnected: %s" (.str "192.0.2.7:51234")), .close],
        onConnection ev = false :=
  ⟨rfl,
    (no_output_after_read_error (failingReadWorld (.closeError 1002 "bad opcode"))
      sampleRequest
      [.upgrade sampleRequest none,
        .log (.Printf "Client connected: %s" (.str "192.0.2.7:51234")),
        .read (.error (.closeError 1002 "bad opcode"))]
      [.log (.Printf "Error: %v" (.err (.closeError 1002 "bad opcode"))),
        .log (.Printf "Client disconnected: %s" (.str "192.0.2.7:51234")), .close]
      rfl).2 (.closeError 1002 "bad opcode") (by decide)⟩

end EchoServer
